import Mathlib

/-!
Verification of the Celestron mount driver
(`src/libs/OpenLiDAR/mount/Celestron.cpp`).

The driver is embedded shallowly:

* Incoming serial data is a list of chunks (`List (List ℕ)` of byte values):
  each iteration of `readn`'s poll/read loop consumes one chunk; an empty
  chunk models a poll timeout or a failed `read` (`status <= 0` /
  `nread <= 0`), which stops the loop.  `read` never returns more than the
  remaining request, so an oversized chunk is capped at `nleft`.
* The response buffer (a 20-byte stack array in the source) is a `List ℕ`;
  its pre-call indeterminate content is the explicit `junk` parameter.
* `send_command` returns the bytes it submitted for writing, the resulting
  buffer content and the C `int` return value (as `ℤ`; the C `true` is `1`).
* Angles (C `double`) are modelled as exact rationals `ℚ`; every concrete
  input used below is far enough from a decision boundary that double
  rounding error (≈ 1e-12 relative) cannot change the branch taken.
* `usleep` delays and the `tcflush`/`termios` configuration calls have no
  observable effect in this model.
-/

/-- Loop body of `readn` (Celestron.cpp:71-87): while bytes remain, poll and
read one chunk; a non-positive poll or read result ends the loop.  Returns
the bytes actually read, in order. -/
def readnBytes : List (List ℕ) → ℕ → List ℕ
  | _, 0 => []
  | [], _ + 1 => []
  | c :: cs, n + 1 =>
    if c = [] then []
    else if c.length ≤ n + 1 then c ++ readnBytes cs (n + 1 - c.length)
    else c.take (n + 1)

/-- Return value of `readn`: `_nbytes - nleft`, the number of bytes read. -/
def readn (chunks : List (List ℕ)) (nbytes : ℕ) : ℕ :=
  (readnBytes chunks nbytes).length

/-- Observable outcome of one `send_command` call: the bytes handed to
`writen`, the response buffer's content afterwards, and the C return value. -/
structure CmdOut where
  written : List ℕ
  resp : List ℕ
  ret : ℤ
deriving DecidableEq

/-- Celestron.cpp:91-112.  With an open descriptor the input is flushed, the
command written, and `_resp_len` bytes are read with a 5-second per-poll
timeout; a byte-count mismatch returns 0, a zero-length expectation returns
`true` (1), otherwise the buffer is NUL-terminated at `nbytes` and `nbytes`
returned.  With `m_fd == 0` nothing is written, read or flushed and `nbytes`
keeps its initial value `_resp_len`, so the call reports success. -/
def send_command (m_fd : ℤ) (chunks : List (List ℕ)) (junk : List ℕ)
    (cmd : List ℕ) (resp_len : ℕ) : CmdOut :=
  if m_fd ≠ 0 then
    let bytes := readnBytes chunks resp_len
    let nbytes := bytes.length
    let buf := bytes ++ junk.drop nbytes
    if nbytes ≠ resp_len then ⟨cmd, buf, 0⟩
    else if resp_len = 0 then ⟨cmd, buf, 1⟩
    else ⟨cmd, buf.set nbytes 0, (nbytes : ℤ)⟩
  else
    if resp_len = 0 then ⟨[], junk, 1⟩
    else ⟨[], junk.set resp_len 0, (resp_len : ℤ)⟩

lemma readnBytes_zero (chunks : List (List ℕ)) : readnBytes chunks 0 = [] := by
  cases chunks <;> rfl

lemma readnBytes_length_le (chunks : List (List ℕ)) (n : ℕ) :
    (readnBytes chunks n).length ≤ n := by
  induction chunks generalizing n with
  | nil => cases n <;> simp [readnBytes]
  | cons c cs ih =>
    cases n with
    | zero => simp [readnBytes]
    | succ m =>
      simp only [readnBytes]
      split
      · simp
      · split
        · rename_i hc hlen
          have h := ih (m + 1 - c.length)
          simp only [List.length_append]
          omega
        · rename_i hc hlen
          simp only [List.length_take]
          omega

lemma readn_le (chunks : List (List ℕ)) (n : ℕ) : readn chunks n ≤ n :=
  readnBytes_length_le chunks n

lemma send_command_ret_open (m_fd : ℤ) (chunks : List (List ℕ))
    (junk cmd : List ℕ) (n : ℕ) (hfd : m_fd ≠ 0) :
    (send_command m_fd chunks junk cmd n).ret =
      if readn chunks n = n then (if n = 0 then 1 else (n : ℤ)) else 0 := by
  simp only [send_command, if_pos hfd, readn]
  by_cases h : (readnBytes chunks n).length = n
  · by_cases hz : n = 0 <;> simp [h, hz, readnBytes_zero]
  · by_cases hz : n = 0
    · subst hz
      simp [readnBytes_zero] at h
    · simp [h, hz]

/-- C1: over an open channel, `send_command` fails (returns 0) exactly when
fewer than the expected `n` bytes were read within the timeout, succeeds
(non-zero) exactly when all `n` were read, and a zero-byte expectation is a
valid success case. -/
theorem send_command_exact_read_contract (m_fd : ℤ) (chunks : List (List ℕ))
    (junk cmd : List ℕ) (n : ℕ) (hfd : m_fd ≠ 0) :
    ((send_command m_fd chunks junk cmd n).ret = 0 ↔ readn chunks n < n)
    ∧ ((send_command m_fd chunks junk cmd n).ret ≠ 0 ↔ readn chunks n = n)
    ∧ (n = 0 → (send_command m_fd chunks junk cmd n).ret = 1) := by
  have hle := readn_le chunks n
  rw [send_command_ret_open m_fd chunks junk cmd n hfd]
  rcases eq_or_ne (readn chunks n) n with h | h
  · rw [if_pos h]
    by_cases hz : n = 0
    · subst hz
      simp [Nat.le_zero.mp hle]
    · rw [if_neg hz]
      refine ⟨?_, ?_, fun hh => absurd hh hz⟩
      · constructor
        · intro hc
          exact absurd (by exact_mod_cast hc) hz
        · intro hc
          omega
      · constructor
        · intro _
          exact h
        · intro _
          exact_mod_cast hz
  · rw [if_neg h]
    have hlt := lt_of_le_of_ne hle h
    refine ⟨⟨fun _ => hlt, fun _ => rfl⟩, ⟨fun hc => absurd rfl hc, fun hc => absurd hc h⟩, ?_⟩
    intro hz
    subst hz
    exact absurd (Nat.le_zero.mp hle) h

/-- Witness for C1 at a concrete run: descriptor 1, the device answers with
one chunk of two bytes, two bytes expected. -/
theorem send_command_exact_read_contract_witness :
    ((send_command 1 [[5, 6]] [] [75, 120] 2).ret = 0 ↔ readn [[5, 6]] 2 < 2)
    ∧ ((send_command 1 [[5, 6]] [] [75, 120] 2).ret ≠ 0 ↔ readn [[5, 6]] 2 = 2)
    ∧ (2 = 0 → (send_command 1 [[5, 6]] [] [75, 120] 2).ret = 1) :=
  send_command_exact_read_contract 1 [[5, 6]] [] [75, 120] 2 (by decide)

/-- The `memcpy(cmd + 4, payload, len)` of the source: overlay `p` onto `l`
starting at index `i`. -/
def overlayAt (l : List ℕ) (i : ℕ) (p : List ℕ) : List ℕ :=
  l.take i ++ p ++ l.drop (i + p.length)

/-- Celestron.cpp:116-129: the 8-byte passthrough frame.  `cmd` starts as
eight zero bytes; bytes 0-3 and 7 are assigned (each value truncated by the
`char` cast), then the payload is copied over bytes 4..  The source requires
`payload_len <= 3`; a longer payload would overwrite byte 7, which the
overlay reproduces. -/
def passthroughFrame (dest cmd_id : ℕ) (payload : List ℕ) (response_len : ℕ) :
    List ℕ :=
  overlayAt
    [0x50, (payload.length + 1) % 256, dest % 256, cmd_id % 256, 0, 0, 0,
      response_len % 256] 4 payload

/-- Celestron.cpp:116-131: build the frame and delegate to `send_command`,
asking for `response_len + 1` bytes. -/
def send_passthrough (m_fd : ℤ) (chunks : List (List ℕ)) (junk : List ℕ)
    (dest cmd_id : ℕ) (payload : List ℕ) (response_len : ℕ) : CmdOut :=
  send_command m_fd chunks junk (passthroughFrame dest cmd_id payload response_len)
    (response_len + 1)

/-- C2: for a payload of length at most 3 and byte-sized fields, the frame is
exactly `[0x50][L+1][dest][subCmdId][payload, zero-padded to 3 slots][R]`,
`send_passthrough` delegates to `send_command` requesting `R + 1` bytes, and
a 1-byte payload to the RA axis (0x10) with sub-command 0x24 yields the wire
bytes `50 02 10 24 <rate> 00 00 00`. -/
theorem send_passthrough_frame_layout (m_fd : ℤ) (chunks : List (List ℕ))
    (junk : List ℕ) (dest cmd_id : ℕ) (payload : List ℕ) (response_len : ℕ)
    (hlen : payload.length ≤ 3) (hdest : dest < 256) (hcmd : cmd_id < 256)
    (hresp : response_len < 256) :
    passthroughFrame dest cmd_id payload response_len =
      [0x50, payload.length + 1, dest, cmd_id]
        ++ (payload ++ List.replicate (3 - payload.length) 0) ++ [response_len]
    ∧ send_passthrough m_fd chunks junk dest cmd_id payload response_len =
        send_command m_fd chunks junk
          (passthroughFrame dest cmd_id payload response_len) (response_len + 1)
    ∧ ∀ rate : ℕ, passthroughFrame 0x10 0x24 [rate] 0 =
        [0x50, 0x02, 0x10, 0x24, rate, 0, 0, 0] := by
  refine ⟨?_, rfl, fun rate => rfl⟩
  have hd : dest % 256 = dest := Nat.mod_eq_of_lt hdest
  have hc : cmd_id % 256 = cmd_id := Nat.mod_eq_of_lt hcmd
  have hr : response_len % 256 = response_len := Nat.mod_eq_of_lt hresp
  match payload, hlen with
  | [], _ => simp [passthroughFrame, overlayAt, hd, hc, hr]
  | [a], _ => simp [passthroughFrame, overlayAt, hd, hc, hr]
  | [a, b], _ => simp [passthroughFrame, overlayAt, hd, hc, hr]
  | [a, b, c], _ => simp [passthroughFrame, overlayAt, hd, hc, hr]

/-- Witness for C2 at a concrete input: RA axis, sub-command 0x24, payload
`[7]`, no expected response bytes. -/
theorem send_passthrough_frame_layout_witness :
    passthroughFrame 0x10 0x24 [7] 0 =
      [0x50, [7].length + 1, 0x10, 0x24]
        ++ ([7] ++ List.replicate (3 - [7].length) 0) ++ [0]
    ∧ send_passthrough 1 [] [] 0x10 0x24 [7] 0 =
        send_command 1 [] [] (passthroughFrame 0x10 0x24 [7] 0) (0 + 1)
    ∧ ∀ rate : ℕ, passthroughFrame 0x10 0x24 [rate] 0 =
        [0x50, 0x02, 0x10, 0x24, rate, 0, 0, 0] :=
  send_passthrough_frame_layout 1 [] [] 0x10 0x24 [7] 0 (by decide) (by decide)
    (by decide) (by decide)

/-- Slew / pulse direction (Celestron.h). -/
inductive CELESTRON_DIRECTION
  | N
  | S
  | E
  | W
deriving DecidableEq

/-- Celestron.cpp:556-564: `move` picks the DEC controller (0x11) for N/S and
the RA controller (0x10) for E/W, sub-command 0x24 for N/W and 0x25 for S/E,
with the single payload byte `rate + 1` and zero expected response bytes. -/
def move (m_fd : ℤ) (chunks : List (List ℕ)) (junk : List ℕ)
    (dir : CELESTRON_DIRECTION) (rate : ℕ) : CmdOut :=
  let dev : ℕ :=
    if dir = CELESTRON_DIRECTION.N ∨ dir = CELESTRON_DIRECTION.S then 0x11 else 0x10
  let cmd_id : ℕ :=
    if dir = CELESTRON_DIRECTION.N ∨ dir = CELESTRON_DIRECTION.W then 0x24 else 0x25
  send_passthrough m_fd chunks junk dev cmd_id [(rate + 1) % 256] 0

/-- Celestron.cpp:566-572: `stop` picks the axis the same way but always
issues sub-command 0x24 with a zero payload byte. -/
def stop (m_fd : ℤ) (chunks : List (List ℕ)) (junk : List ℕ)
    (dir : CELESTRON_DIRECTION) : CmdOut :=
  let dev : ℕ :=
    if dir = CELESTRON_DIRECTION.N ∨ dir = CELESTRON_DIRECTION.S then 0x11 else 0x10
  send_passthrough m_fd chunks junk dev 0x24 [0] 0

/-- Celestron.cpp:340-356: per-axis firmware query.  The result models the
`snprintf` arguments: `some (major, minor)` on the 2-byte ("major.0") and
3-byte ("major.minor") switch branches, `none` on the default branch. -/
def getDevFirmware (m_fd : ℤ) (chunks : List (List ℕ)) (junk : List ℕ)
    (dev : ℕ) : Option (ℕ × ℕ) :=
  let o := send_passthrough m_fd chunks junk dev 0xfe [] 2
  if o.ret = 2 then some (o.resp.headD 0, 0)
  else if o.ret = 3 then some (o.resp.headD 0, (o.resp.drop 1).headD 0)
  else none

/-- The C-string content of the response buffer, as `strcmp` sees it. -/
def cstr (l : List ℕ) : List ℕ :=
  l.takeWhile (fun b => b ≠ 0)

/-- Celestron.cpp:180-186: send `"Kx"` expecting 2 bytes; on success compare
the buffer with `"x#"` (bytes 120, 35). -/
def echo (m_fd : ℤ) (chunks : List (List ℕ)) (junk : List ℕ) : Bool :=
  let o := send_command m_fd chunks junk [75, 120] 2
  if o.ret = 0 then false else decide (cstr o.resp = [120, 35])

/-- Celestron.cpp:209-212: send `"x#"` expecting 1 byte. -/
def hibernate (m_fd : ℤ) (chunks : List (List ℕ)) (junk : List ℕ) : Bool :=
  decide ((send_command m_fd chunks junk [120, 35] 1).ret ≠ 0)

/-- Celestron.cpp:214-217: send `"y#"` expecting 1 byte. -/
def wakeup (m_fd : ℤ) (chunks : List (List ℕ)) (junk : List ℕ) : Bool :=
  decide ((send_command m_fd chunks junk [121, 35] 1).ret ≠ 0)

/-- Celestron.cpp:574-577: send `"M"` expecting 1 byte. -/
def abort (m_fd : ℤ) (chunks : List (List ℕ)) (junk : List ℕ) : Bool :=
  decide ((send_command m_fd chunks junk [77] 1).ret ≠ 0)

/-- C6 counterexample: `stop` for direction South issues sub-command byte
0x24 at frame index 3, not the 0x25 the claim requires for a negative
direction. -/
theorem stop_south_uses_cmd_0x24 :
    (stop 1 [] (List.replicate 20 0) CELESTRON_DIRECTION.S).written =
      [0x50, 0x02, 0x11, 0x24, 0, 0, 0, 0]
    ∧ ([0x50, 0x02, 0x11, 0x24, 0, 0, 0, 0].getD 3 0 = 0x24
        ∧ decide ((0x24 : ℕ) = 0x25) = false) := by
  decide

/-- C6 amended: `move` addresses DEC (0x11) for N/S and RA (0x10) for E/W and
chooses sub-command 0x24 for N/W and 0x25 for S/E with the single rate byte;
`stop` addresses the axis the same way but always issues sub-command 0x24
with a zero rate byte; both expect zero response bytes (frame byte 7 is 0). -/
theorem move_stop_frame_layout (chunks : List (List ℕ)) (junk : List ℕ)
    (rate : ℕ) :
    (move 1 chunks junk CELESTRON_DIRECTION.N rate).written =
      [0x50, 0x02, 0x11, 0x24, (rate + 1) % 256, 0, 0, 0]
    ∧ (move 1 chunks junk CELESTRON_DIRECTION.S rate).written =
      [0x50, 0x02, 0x11, 0x25, (rate + 1) % 256, 0, 0, 0]
    ∧ (move 1 chunks junk CELESTRON_DIRECTION.W rate).written =
      [0x50, 0x02, 0x10, 0x24, (rate + 1) % 256, 0, 0, 0]
    ∧ (move 1 chunks junk CELESTRON_DIRECTION.E rate).written =
      [0x50, 0x02, 0x10, 0x25, (rate + 1) % 256, 0, 0, 0]
    ∧ (stop 1 chunks junk CELESTRON_DIRECTION.N).written =
      [0x50, 0x02, 0x11, 0x24, 0, 0, 0, 0]
    ∧ (stop 1 chunks junk CELESTRON_DIRECTION.S).written =
      [0x50, 0x02, 0x11, 0x24, 0, 0, 0, 0]
    ∧ (stop 1 chunks junk CELESTRON_DIRECTION.W).written =
      [0x50, 0x02, 0x10, 0x24, 0, 0, 0, 0]
    ∧ (stop 1 chunks junk CELESTRON_DIRECTION.E).written =
      [0x50, 0x02, 0x10, 0x24, 0, 0, 0, 0] := by
  refine ⟨?_, ?_, ?_, ?_, ?_, ?_, ?_, ?_⟩ <;>
    · simp [move, stop, send_passthrough, send_command, passthroughFrame, overlayAt]
      split <;> rfl

/-- C5: with the strict `send_command` byte-count check, the firmware query
(`send_passthrough` with sub-command 0xFE, expected response length 2,
hence 3 bytes requested) can only return 0 or 3 — the `case 2` branch of
`getDevFirmware` is unreachable, so a device that answers the query with
exactly 2 bytes makes `getDevFirmware` fail instead of reporting "major.0";
a full 3-byte answer still succeeds as "major.minor". -/
theorem getDevFirmware_two_byte_response_fails :
    (∀ (m_fd : ℤ) (chunks : List (List ℕ)) (junk : List ℕ) (dev : ℕ),
      (send_passthrough m_fd chunks junk dev 0xfe [] 2).ret = 0
      ∨ (send_passthrough m_fd chunks junk dev 0xfe [] 2).ret = 3)
    ∧ getDevFirmware 1 [[10, 35]] (List.replicate 20 0) 0x10 = none
    ∧ getDevFirmware 1 [[10, 20, 35]] (List.replicate 20 0) 0x10 = some (10, 20) := by
  refine ⟨?_, by decide, by decide⟩
  intro m_fd chunks junk dev
  by_cases hfd : m_fd ≠ 0
  · rw [send_passthrough, send_command_ret_open _ _ _ _ _ hfd]
    rcases eq_or_ne (readn chunks 3) 3 with h | h
    · simp [h]
    · simp [h]
  · push_neg at hfd
    subst hfd
    right
    simp [send_passthrough, send_command]

/-- Celestron.cpp:436-438: raw 32-bit angle to decimal degrees. -/
def pnex2dd (value : ℕ) : ℚ :=
  360 * ((value : ℚ) / 4294967296)

/-- Celestron.cpp:449-460: fold an angle into declination range: reduce by
floored modulo 360, then reflect `(90, 270]` to `180 - angle` and shift
`(270, 360]` down by 360. -/
def trimDecAngle (angle : ℚ) : ℚ :=
  let a := angle - 360 * ⌊angle / 360⌋
  let a2 := if a < 0 then a + 360 else a
  if 90 < a2 ∧ a2 ≤ 270 then 180 - a2
  else if 270 < a2 ∧ a2 ≤ 360 then a2 - 360
  else a2

/-- Celestron.cpp:463-469: decimal degrees to the raw 32-bit angle.  The C
cast `(uint32_t)` truncates the non-negative scaled value toward zero, which
is `Int.toNat` of the floor here. -/
def dd2pnex (angle : ℚ) : ℕ :=
  let a := angle - 360 * ⌊angle / 360⌋
  let a2 := if a < 0 then a + 360 else a
  Int.toNat ⌊a2 * 4294967296 / 360⌋

lemma mod360_nonneg (a : ℚ) : 0 ≤ a - 360 * ⌊a / 360⌋ := by
  have h1 := Int.floor_le (a / 360)
  have h2 : (360 : ℚ) * ⌊a / 360⌋ ≤ 360 * (a / 360) :=
    mul_le_mul_of_nonneg_left h1 (by norm_num)
  have heq : (360 : ℚ) * (a / 360) = a := by ring
  linarith

lemma mod360_lt (a : ℚ) : a - 360 * ⌊a / 360⌋ < 360 := by
  have h1 := Int.lt_floor_add_one (a / 360)
  have h2 : (360 : ℚ) * (a / 360) < 360 * (⌊a / 360⌋ + 1) :=
    mul_lt_mul_of_pos_left h1 (by norm_num)
  have heq : (360 : ℚ) * (a / 360) = a := by ring
  push_cast at h2
  linarith

lemma trimDecAngle_range (a : ℚ) : -90 ≤ trimDecAngle a ∧ trimDecAngle a ≤ 90 := by
  have h0 := mod360_nonneg a
  have h1 := mod360_lt a
  simp only [trimDecAngle, if_neg (not_lt.mpr h0)]
  split_ifs with hb1 hb2
  · exact ⟨by linarith [hb1.2], by linarith [hb1.1]⟩
  · exact ⟨by linarith [hb2.2], by linarith [hb2.1]⟩
  · rw [not_and_or] at hb1 hb2
    constructor
    · linarith
    · rcases hb1 with hb1 | hb1
      · push_neg at hb1
        linarith
      · push_neg at hb1
        rcases hb2 with hb2 | hb2
        · push_neg at hb2
          linarith
        · push_neg at hb2
          linarith

lemma trimDecAngle_fixed (r : ℚ) (hl : -90 ≤ r) (hr : r ≤ 90) :
    trimDecAngle r = r := by
  rcases le_or_lt 0 r with h | h
  · have hf : ⌊r / 360⌋ = 0 := by
      rw [Int.floor_eq_zero_iff]
      constructor
      · positivity
      · rw [div_lt_one (by norm_num)]
        linarith
    simp only [trimDecAngle, hf]
    push_cast
    rw [mul_zero, sub_zero, if_neg (not_lt.mpr h)]
    split_ifs with h1 h2
    · linarith [h1.1]
    · linarith [h2.1]
    · rfl
  · have hf : ⌊r / 360⌋ = -1 := by
      apply Int.floor_eq_iff.mpr
      constructor
      · push_cast
        rw [le_div_iff₀ (by norm_num)]
        linarith
      · push_cast
        rw [div_lt_iff₀ (by norm_num)]
        linarith
    simp only [trimDecAngle, hf]
    push_cast
    have ha : r - 360 * (-1 : ℚ) = r + 360 := by ring
    rw [ha, if_neg (by linarith : ¬(r + 360 < 0))]
    split_ifs with h1 h2
    · linarith [h1.2]
    · linarith [h2.1]
    · exfalso
      have h90 : 90 < r + 360 := by linarith
      rw [not_and_or] at h1 h2
      rcases h1 with h1 | h1
      · exact h1 h90
      · push_neg at h1
        rcases h2 with h2 | h2
        · exact h2 h1
        · push_neg at h2
          linarith

/-- C4: `trimDecAngle` always lands in `[-90, 90]`, is idempotent, and maps
100 to 80 and 300 to -60. -/
theorem trimDecAngle_folding_contract :
    (∀ a : ℚ, (-90 ≤ trimDecAngle a ∧ trimDecAngle a ≤ 90)
      ∧ trimDecAngle (trimDecAngle a) = trimDecAngle a)
    ∧ trimDecAngle 100 = 80 ∧ trimDecAngle 300 = -60 := by
  refine ⟨fun a => ?_, by norm_num [trimDecAngle], by norm_num [trimDecAngle]⟩
  have hr := trimDecAngle_range a
  exact ⟨hr, trimDecAngle_fixed _ hr.1 hr.2⟩

/-- C3 counterexample: at angle `630 / 2^32` the scaled value is exactly
1.75, which `dd2pnex` truncates to 1 while the claimed rounding gives 2
(the double computation is exact here: 630 / 2^32 is a dyadic rational). -/
theorem dd2pnex_rounding_refuted :
    dd2pnex (630 / 4294967296) = 1
    ∧ round (((630 / 4294967296 : ℚ) - 360 * ⌊(630 / 4294967296 : ℚ) / 360⌋)
        * 4294967296 / 360) = 2
    ∧ (1 : ℤ) ≠ 2 := by
  refine ⟨by norm_num [dd2pnex], by norm_num [round_eq], by norm_num⟩

lemma dd2pnex_floor (a : ℚ) :
    (dd2pnex a : ℤ) = ⌊(a - 360 * ⌊a / 360⌋) * 4294967296 / 360⌋ := by
  have h0 := mod360_nonneg a
  simp only [dd2pnex, if_neg (not_lt.mpr h0)]
  exact Int.toNat_of_nonneg (Int.floor_nonneg.mpr (by positivity))

/-- C3 amended: `dd2pnex` equals the floor (truncation, not rounding) of the
scaled floored-modulo angle and always fits in 32 bits; `pnex2dd raw` equals
`raw / 2^32 * 360` and lies in `[0, 360)` for every 32-bit raw value. -/
theorem angle_codec_raw_conversion :
    (∀ a : ℚ, (dd2pnex a : ℤ) = ⌊(a - 360 * ⌊a / 360⌋) * 4294967296 / 360⌋
      ∧ dd2pnex a < 4294967296)
    ∧ (∀ raw : ℕ, raw < 4294967296 →
        pnex2dd raw = (raw : ℚ) / 4294967296 * 360
        ∧ 0 ≤ pnex2dd raw ∧ pnex2dd raw < 360) := by
  constructor
  · intro a
    refine ⟨dd2pnex_floor a, ?_⟩
    have h0 := mod360_nonneg a
    have h1 := mod360_lt a
    have hx : (a - 360 * ⌊a / 360⌋) * 4294967296 / 360 < 4294967296 := by
      rw [div_lt_iff₀ (by norm_num)]
      nlinarith
    have hfl : ⌊(a - 360 * ⌊a / 360⌋) * 4294967296 / 360⌋ < 4294967296 :=
      Int.floor_lt.mpr (by exact_mod_cast hx)
    have := dd2pnex_floor a
    omega
  · intro raw h
    refine ⟨by rw [pnex2dd]; ring, by rw [pnex2dd]; positivity, ?_⟩
    rw [pnex2dd]
    have hc : (raw : ℚ) < 4294967296 := by exact_mod_cast h
    rw [show (360 : ℚ) * ((raw : ℚ) / 4294967296) = (raw : ℚ) * 360 / 4294967296
      by ring]
    rw [div_lt_iff₀ (by norm_num)]
    nlinarith

/-- Witness for C3's amended theorem at raw value `2^31`. -/
theorem angle_codec_raw_conversion_witness :
    pnex2dd 2147483648 = (2147483648 : ℚ) / 4294967296 * 360
    ∧ 0 ≤ pnex2dd 2147483648 ∧ pnex2dd 2147483648 < 360 :=
  angle_codec_raw_conversion.2 2147483648 (by norm_num)

/-- Session state: the serial descriptor `m_fd` (0 in the constructor,
Celestron.cpp:133-135; `m_connected` is never initialised there, so the
initial value is left to the caller of the model) and the connected flag. -/
structure CelestronState where
  m_fd : ℤ
  m_connected : Bool
deriving DecidableEq

/-- Celestron.cpp:141-172.  `openResult` is what `open(_port, O_RDWR)`
returns (-1 on failure, a positive descriptor otherwise) and `echoOk` the
outcome of `checkConnection()` (two echo attempts).  The guard rejects any
state with `m_fd != 0`; note that `m_fd` is assigned the result of `open`
before the -1 check, and is never cleared afterwards. -/
def connect (s : CelestronState) (openResult : ℤ) (echoOk : Bool) :
    CelestronState × Bool :=
  if s.m_fd ≠ 0 then (s, false)
  else
    let s1 : CelestronState := { s with m_fd := openResult }
    if openResult = -1 then (s1, false)
    else ({ s1 with m_connected := echoOk }, echoOk)

/-- Celestron.cpp:174-178: close only when connected; clear the flag, but
leave `m_fd` untouched. -/
def disconnect (s : CelestronState) : CelestronState :=
  { s with m_connected := false }

/-- C7 is a code bug: after a successful connect (descriptor 5, echo ok)
followed by disconnect, the session is disconnected, yet a second connect is
rejected (returns false and changes nothing) because `disconnect` never
resets `m_fd` to 0 — the state machine never returns to a connectable
Disconnected state.  Plain disconnect idempotence does hold. -/
theorem connect_after_disconnect_rejected :
    ∀ j : Bool,
      (connect ⟨0, j⟩ 5 true).2 = true
      ∧ ((connect ⟨0, j⟩ 5 true).1).m_connected = true
      ∧ (disconnect (connect ⟨0, j⟩ 5 true).1).m_connected = false
      ∧ (connect (disconnect (connect ⟨0, j⟩ 5 true).1) 7 true).2 = false
      ∧ (connect (disconnect (connect ⟨0, j⟩ 5 true).1) 7 true).1 =
          disconnect (connect ⟨0, j⟩ 5 true).1
      ∧ ∀ s : CelestronState, disconnect (disconnect s) = disconnect s := by
  intro j
  refine ⟨rfl, rfl, rfl, rfl, rfl, fun s => rfl⟩

/-- The C `rint` under the default rounding mode: round to nearest, ties to
even. -/
def rintQ (q : ℚ) : ℤ :=
  let f := ⌊q⌋
  let r := q - f
  if r < 1/2 then f
  else if 1/2 < r then f + 1
  else if f % 2 = 0 then f else f + 1

/-- Celestron.cpp:360: `*d = (int32_t)fabs(value)` (truncation of a
non-negative value is the floor). -/
def sexDraw (v : ℚ) : ℤ := ⌊|v|⌋

/-- Celestron.cpp:361: `*m = (int32_t)((fabs(value) - *d) * 60.0)`. -/
def sexMraw (v : ℚ) : ℤ := ⌊(|v| - sexDraw v) * 60⌋

/-- Celestron.cpp:362: `*s = (int32_t)rint(((fabs(value) - *d) * 60.0 - *m) * 60.0)`. -/
def sexSraw (v : ℚ) : ℤ := rintQ (((|v| - sexDraw v) * 60 - sexMraw v) * 60)

/-- Minutes after the seconds-carry step (Celestron.cpp:366-370). -/
def sexCarryM (v : ℚ) : ℤ := if sexSraw v = 60 then sexMraw v + 1 else sexMraw v

/-- Celestron.cpp:359-379: full `getSexComponents`, as (degrees, minutes,
seconds); the sign is reapplied to the degree component only. -/
def getSexComponents (v : ℚ) : ℤ × ℤ × ℤ :=
  let s1 : ℤ := if sexSraw v = 60 then 0 else sexSraw v
  let m1 := sexCarryM v
  let m2 : ℤ := if m1 = 60 then 0 else m1
  let d1 := if m1 = 60 then sexDraw v + 1 else sexDraw v
  let d2 := if v < 0 then -d1 else d1
  (d2, m2, s1)

lemma getSexComponents_eq (v : ℚ) :
    getSexComponents v =
      (if v < 0 then -(if sexCarryM v = 60 then sexDraw v + 1 else sexDraw v)
        else (if sexCarryM v = 60 then sexDraw v + 1 else sexDraw v),
      if sexCarryM v = 60 then 0 else sexCarryM v,
      if sexSraw v = 60 then 0 else sexSraw v) := rfl

lemma sexDraw_low : sexDraw (10999861 / 1000000) = 10 := by
  have habs : |(10999861 / 1000000 : ℚ)| = 10999861 / 1000000 :=
    abs_of_pos (by norm_num)
  rw [sexDraw, habs]
  norm_num

lemma sexMraw_low : sexMraw (10999861 / 1000000) = 59 := by
  have habs : |(10999861 / 1000000 : ℚ)| = 10999861 / 1000000 :=
    abs_of_pos (by norm_num)
  rw [sexMraw, habs, sexDraw_low]
  norm_num

lemma sexSraw_low : sexSraw (10999861 / 1000000) = 59 := by
  have habs : |(10999861 / 1000000 : ℚ)| = 10999861 / 1000000 :=
    abs_of_pos (by norm_num)
  rw [sexSraw, habs, sexDraw_low, sexMraw_low, rintQ]
  norm_num

lemma sexDraw_high : sexDraw (1099987 / 100000) = 10 := by
  have habs : |(1099987 / 100000 : ℚ)| = 1099987 / 100000 :=
    abs_of_pos (by norm_num)
  rw [sexDraw, habs]
  norm_num

lemma sexMraw_high : sexMraw (1099987 / 100000) = 59 := by
  have habs : |(1099987 / 100000 : ℚ)| = 1099987 / 100000 :=
    abs_of_pos (by norm_num)
  rw [sexMraw, habs, sexDraw_high]
  norm_num

lemma sexSraw_high : sexSraw (1099987 / 100000) = 60 := by
  have habs : |(1099987 / 100000 : ℚ)| = 1099987 / 100000 :=
    abs_of_pos (by norm_num)
  rw [sexSraw, habs, sexDraw_high, sexMraw_high, rintQ]
  norm_num

lemma sexCarryM_high : sexCarryM (1099987 / 100000) = 60 := by
  rw [sexCarryM, if_pos sexSraw_high, sexMraw_high]
  norm_num

lemma sexCarryM_low : sexCarryM (10999861 / 1000000) = 59 := by
  rw [sexCarryM, sexSraw_low, sexMraw_low]
  norm_num

/-- C8 counterexample: 10.999861 is below 10 + 3599.5/3600, so its rounded
seconds are 59, not 60: the code yields (10, 59, 59), not the claimed
(11, 0, 0). -/
theorem getSexComponents_at_claimed_input :
    getSexComponents (10999861 / 1000000) = (10, 59, 59)
    ∧ ((10, 59, 59) : ℤ × ℤ × ℤ) ≠ (11, 0, 0) := by
  constructor
  · rw [getSexComponents_eq, sexCarryM_low, sexSraw_low, sexDraw_low]
    norm_num
  · decide

/-- C8 amended: rounded seconds of 60 carry into the minutes (seconds
becomes 0), minutes of 60 carry into the degrees (minutes becomes 0, degrees
incremented), the sign is reapplied to the degree component only, and the
example input 10.999861 yields (10, 59, 59) — the claimed (11, 0, 0) arises
only from 10 + 3599.5/3600 upward, e.g. at 10.99987. -/
theorem getSexComponents_carry_and_sign :
    (∀ v : ℚ, sexSraw v = 60 →
      (getSexComponents v).2.2 = 0 ∧ sexCarryM v = sexMraw v + 1)
    ∧ (∀ v : ℚ, sexCarryM v = 60 →
      (getSexComponents v).2.1 = 0
      ∧ (getSexComponents v).1 =
          (if v < 0 then -(sexDraw v + 1) else sexDraw v + 1))
    ∧ (∀ v : ℚ, getSexComponents (-v) =
        (-(getSexComponents v).1, (getSexComponents v).2.1,
          (getSexComponents v).2.2))
    ∧ getSexComponents (10999861 / 1000000) = (10, 59, 59)
    ∧ getSexComponents (1099987 / 100000) = (11, 0, 0) := by
  refine ⟨?_, ?_, ?_, ?_, ?_⟩
  · intro v h
    simp [getSexComponents_eq, sexCarryM, h]
  · intro v h
    simp [getSexComponents_eq, h]
  · intro v
    have hd : sexDraw (-v) = sexDraw v := by
      rw [sexDraw, abs_neg, sexDraw]
    have hs : sexSraw (-v) = sexSraw v := by
      have hm : sexMraw (-v) = sexMraw v := by
        rw [sexMraw, abs_neg, hd, sexMraw]
      rw [sexSraw, abs_neg, hd, hm, sexSraw]
    have hc : sexCarryM (-v) = sexCarryM v := by
      have hm : sexMraw (-v) = sexMraw v := by
        rw [sexMraw, abs_neg, hd, sexMraw]
      rw [sexCarryM, hs, hm, sexCarryM]
    rcases lt_trichotomy v 0 with hv | hv | hv
    · have h1 : ¬(-v < 0) := by linarith
      simp [getSexComponents_eq, hd, hs, hc, hv, h1]
    · subst hv
      norm_num [getSexComponents_eq, sexCarryM, sexSraw, sexMraw, sexDraw, rintQ]
    · have h1 : -v < 0 := by linarith
      have h2 : ¬(v < 0) := by linarith
      simp [getSexComponents_eq, hd, hs, hc, h1, h2]
  · rw [getSexComponents_eq, sexCarryM_low, sexSraw_low, sexDraw_low]
    norm_num
  · rw [getSexComponents_eq, sexCarryM_high, sexSraw_high, sexDraw_high]
    norm_num

/-- Witness for C8's amended theorem: both carry hypotheses hold at
10.99987. -/
theorem getSexComponents_carry_and_sign_witness :
    ((getSexComponents (1099987 / 100000)).2.2 = 0
      ∧ sexCarryM (1099987 / 100000) = sexMraw (1099987 / 100000) + 1)
    ∧ ((getSexComponents (1099987 / 100000)).2.1 = 0
      ∧ (getSexComponents (1099987 / 100000)).1 =
          (if (1099987 / 100000 : ℚ) < 0 then -(sexDraw (1099987 / 100000) + 1)
            else sexDraw (1099987 / 100000) + 1)) :=
  ⟨getSexComponents_carry_and_sign.1 (1099987 / 100000) sexSraw_high,
    getSexComponents_carry_and_sign.2.1 (1099987 / 100000) sexCarryM_high⟩

/-- Celestron.cpp:496-522: the busy-poll loop shared by `gotoRADec` and
`gotoAzAlt`.  The transport is abstracted into outcome traces: `flags` are
the successive `isSlewing()` results (an exhausted list reads as idle) and
`reads` the successive parsed position read-backs; a loop iteration with no
read left keeps the previous values (a failed `getRADec`/`getAzAlt` leaves
the C variables unchanged).  `last` enters as the uninitialised locals
`ra, dec` / `az, alt`. -/
def gotoReadback : List Bool → List (ℚ × ℚ) → (ℚ × ℚ) → (ℚ × ℚ)
  | true :: fs, r :: rs, _ => gotoReadback fs rs r
  | true :: fs, [], last => gotoReadback fs [] last
  | _, _, last => last

/-- Celestron.cpp:496-508: slew, poll until idle with a 1 ms sleep between
polls (timing not modelled), then compare the last read-back with the
request by exact equality. -/
def gotoRADec (flags : List Bool) (reads : List (ℚ × ℚ))
    (init target : ℚ × ℚ) : Bool :=
  decide (gotoReadback flags reads init = target)

/-- Celestron.cpp:510-522: the azimuth/altitude analog of `gotoRADec`. -/
def gotoAzAlt (flags : List Bool) (reads : List (ℚ × ℚ))
    (init target : ℚ × ℚ) : Bool :=
  decide (gotoReadback flags reads init = target)

lemma gotoReadback_replicate (n : ℕ) (reads : List (ℚ × ℚ)) (init : ℚ × ℚ)
    (h1 : 1 ≤ n) (h2 : n ≤ reads.length) :
    gotoReadback (List.replicate n true) reads init =
      reads.getD (n - 1) (0, 0) := by
  induction n generalizing reads init with
  | zero => omega
  | succ m ih =>
    cases reads with
    | nil => simp at h2
    | cons r rs =>
      rw [List.replicate_succ]
      have hstep : gotoReadback (true :: List.replicate m true) (r :: rs) init =
          gotoReadback (List.replicate m true) rs r := rfl
      rw [hstep]
      cases m with
      | zero =>
        have : gotoReadback ([] : List Bool) rs r = r := rfl
        simp [this]
      | succ k =>
        have h2' : k + 1 ≤ rs.length := by
          simp at h2
          omega
        rw [ih rs r (by omega) h2']
        simp

/-- C9: when the device reports slewing for `n ≥ 1` polls (then idle) and
every read-back succeeds, both goto operations report success exactly when
the last read-back equals the requested target — exact equality, as the
concrete near-miss conjunct shows: being off by `1/2^32` in one coordinate
already fails. -/
theorem goto_exact_equality_contract (n : ℕ) (reads : List (ℚ × ℚ))
    (init target : ℚ × ℚ) (h1 : 1 ≤ n) (h2 : n ≤ reads.length) :
    (gotoRADec (List.replicate n true) reads init target = true ↔
      reads.getD (n - 1) (0, 0) = target)
    ∧ (gotoAzAlt (List.replicate n true) reads init target = true ↔
      reads.getD (n - 1) (0, 0) = target)
    ∧ gotoRADec [true] [(1, 2 + 1/4294967296)] (0, 0) (1, 2) = false
    ∧ gotoAzAlt [true] [(1, 2 + 1/4294967296)] (0, 0) (1, 2) = false := by
  have hr := gotoReadback_replicate n reads init h1 h2
  refine ⟨?_, ?_, ?_, ?_⟩
  · rw [gotoRADec, hr]
    simp
  · rw [gotoAzAlt, hr]
    simp
  · rw [gotoRADec]
    have : gotoReadback [true] [(1, 2 + 1/4294967296)] (0, 0) =
        (1, 2 + 1/4294967296) := rfl
    rw [this]
    simp only [decide_eq_false_iff_not]
    intro hcontra
    have := congrArg Prod.snd hcontra
    norm_num at this
  · rw [gotoAzAlt]
    have : gotoReadback [true] [(1, 2 + 1/4294967296)] (0, 0) =
        (1, 2 + 1/4294967296) := rfl
    rw [this]
    simp only [decide_eq_false_iff_not]
    intro hcontra
    have := congrArg Prod.snd hcontra
    norm_num at this

/-- Witness for C9: one slewing poll, one read-back equal to the target. -/
theorem goto_exact_equality_contract_witness :
    (gotoRADec (List.replicate 1 true) [((1 : ℚ), (2 : ℚ))] (9, 9) (1, 2) = true ↔
      [((1 : ℚ), (2 : ℚ))].getD 0 (0, 0) = (1, 2))
    ∧ (gotoAzAlt (List.replicate 1 true) [((1 : ℚ), (2 : ℚ))] (9, 9) (1, 2) = true ↔
      [((1 : ℚ), (2 : ℚ))].getD 0 (0, 0) = (1, 2))
    ∧ gotoRADec [true] [(1, 2 + 1/4294967296)] (0, 0) (1, 2) = false
    ∧ gotoAzAlt [true] [(1, 2 + 1/4294967296)] (0, 0) (1, 2) = false :=
  goto_exact_equality_contract 1 [((1 : ℚ), (2 : ℚ))] (9, 9) (1, 2)
    (by norm_num) (by norm_num)

/-- C10 counterexample: on a never-connected session (`m_fd = 0`, the
constructor's value) with a zero-filled stack buffer, `echo` returns false:
`send_command` reports success without reading anything, but the buffer then
fails the `strcmp` against `"x#"` — so not every operation on a
never-connected session reports success. -/
theorem echo_on_never_connected_session :
    echo 0 [] (List.replicate 20 0) = false := by decide

/-- C10 amended: with `m_fd = 0`, `send_command` writes nothing, reads
nothing and leaves only its NUL terminator in the caller's buffer, yet
returns success (`resp_len`, or `true` for a zero-length expectation); hence
every operation that returns the `send_command` status directly (hibernate,
wakeup, abort, ...) reports success on a never-connected session with no
device data in its buffer, while operations that validate buffer content
(such as `echo`) compare indeterminate bytes instead. -/
theorem send_command_disconnected_reports_success (chunks : List (List ℕ))
    (junk cmd : List ℕ) (n : ℕ) :
    (send_command 0 chunks junk cmd n).written = []
    ∧ (send_command 0 chunks junk cmd n).ret = (if n = 0 then 1 else (n : ℤ))
    ∧ (send_command 0 chunks junk cmd n).resp =
        (if n = 0 then junk else junk.set n 0)
    ∧ hibernate 0 chunks junk = true
    ∧ wakeup 0 chunks junk = true
    ∧ abort 0 chunks junk = true := by
  by_cases hz : n = 0 <;>
    simp [send_command, hibernate, wakeup, abort, hz]
